import Mathlib

/-!
Shallow embedding of the core of `src/lambda/index.mjs` from the
telegram-scheduler-bot repository: the temporal resolver `parseDateTime`,
the event assembly in `handleMessage`, and the two calendar exporters
`createGoogleCalendarUrl` and `createIcsContent`.

Modelling conventions:
* A JavaScript `Date` is modelled as an integer count of minutes since the
  Unix epoch (`EpochMin`).  The Lambda runtime (nodejs20.x, no `TZ`
  variable set by the CDK stack) runs with local time = UTC, so the local
  accessors `getFullYear`/`getMonth`/`getDate`/`getHours`/`getMinutes` and
  `toISOString` read the same (proleptic-Gregorian, UTC) calendar fields.
  All code paths under proof work at minute granularity, which is the
  granularity of every value the program constructs.
* The external `chrono-node` parser, the ICU month-name lookup used by
  `toLocaleString`, and the ICU timezone-validity probe used by
  `isValidTimezone` are not part of this repository; they are passed in as
  an explicit environment (`ChronoEnv`), and theorems quantify over it or
  instantiate it with concrete behaviours.
* The regular-expression matchers of the resolver are translated into
  explicit scanning functions with the same leftmost-match, greedy,
  backtracking semantics as the concrete JavaScript regexes they embed.
-/

/-! ## Calendar arithmetic (proleptic Gregorian, the calendar of JS Date) -/

/-- Minutes since the Unix epoch; the model of a JavaScript `Date` value. -/
abbrev EpochMin := Int

/-- Days since 1970-01-01 of the civil date (y, m, d), m in 1..12.
The day argument enters linearly, so out-of-range days extrapolate exactly
like the rollover normalization JS `new Date(y, m, d, ...)` performs. -/
def daysFromCivil (y m d : Int) : Int :=
  let y2 := if m ≤ 2 then y - 1 else y
  let era := Int.fdiv y2 400
  let yoe := y2 - era * 400
  let mp := Int.emod (m + 9) 12
  let doy := Int.fdiv (153 * mp + 2) 5 + d - 1
  let doe := yoe * 365 + Int.fdiv yoe 4 - Int.fdiv yoe 100 + doy
  era * 146097 + doe - 719468

/-- Civil date (y, m, d) of a day count since 1970-01-01. -/
def civilFromDays (z0 : Int) : Int × Int × Int :=
  let z := z0 + 719468
  let era := Int.fdiv z 146097
  let doe := z - era * 146097
  let yoe := Int.fdiv (doe - Int.fdiv doe 1460 + Int.fdiv doe 36524 - Int.fdiv doe 146096) 365
  let y := yoe + era * 400
  let doy := doe - (365 * yoe + Int.fdiv yoe 4 - Int.fdiv yoe 100)
  let mp := Int.fdiv (5 * doy + 2) 153
  let d := doy - Int.fdiv (153 * mp + 2) 5 + 1
  let m := if mp < 10 then mp + 3 else mp - 9
  (if m ≤ 2 then y + 1 else y, m, d)

/-- Day index (days since epoch) of the instant, i.e. the date part of
`toISOString` and, in the UTC-local Lambda runtime, of the local getters. -/
def utcDayIndex (e : EpochMin) : Int := Int.fdiv e 1440

/-- Minutes past midnight of the instant. -/
def minutesOfDay (e : EpochMin) : Int := Int.emod e 1440

/-- JS `date.getFullYear()`. -/
def getFullYear (e : EpochMin) : Int := (civilFromDays (utcDayIndex e)).1

/-- JS `date.getMonth()` (0-based month). -/
def getMonth (e : EpochMin) : Int := (civilFromDays (utcDayIndex e)).2.1 - 1

/-- JS `date.getDate()` (day of month). -/
def getDate (e : EpochMin) : Int := (civilFromDays (utcDayIndex e)).2.2

/-- JS `date.getHours()`. -/
def getHours (e : EpochMin) : Int := Int.fdiv (minutesOfDay e) 60

/-- JS `date.getMinutes()`. -/
def getMinutes (e : EpochMin) : Int := Int.emod (minutesOfDay e) 60

/-- JS `new Date(year, month0, day, hour, minute)` with month 0-based and
the standard rollover normalization of out-of-range components. -/
def newDateYMDHM (year month0 day hour minute : Int) : EpochMin :=
  let y := year + Int.fdiv month0 12
  let m := Int.emod month0 12 + 1
  daysFromCivil y m day * 1440 + hour * 60 + minute

/-- JS `d.setHours(h, m, 0, 0)` on a copy of `e` (same calendar day, new
time of day; hours beyond 23 roll over linearly just as in JS). -/
def setHoursMin (e : EpochMin) (h m : Int) : EpochMin :=
  utcDayIndex e * 1440 + h * 60 + m

/-! ## Character and string utilities for the embedded regex matchers -/

/-- JS regex word character `\w` = `[A-Za-z0-9_]`. -/
def isWordChar (c : Char) : Bool := c.isAlpha || c.isDigit || c = '_'

/-- JS regex whitespace (the instances relevant to the matched texts). -/
def isWsChar (c : Char) : Bool := c = ' ' || c = '\t' || c = '\n' || c = '\r'

def lowerList (cs : List Char) : List Char := cs.map Char.toLower

def skipWs : List Char → List Char
  | [] => []
  | c :: rest => if isWsChar c then skipWs rest else c :: rest

def wsLen (cs : List Char) : Nat := cs.length - (skipWs cs).length

/-- Numeric value of a list of decimal digit characters (JS `parseInt` on
a capture known to consist of digits). -/
def digitsToNat (cs : List Char) : Nat :=
  cs.foldl (fun acc c => acc * 10 + (c.toNat - '0'.toNat)) 0

def listStartsWith : List Char → List Char → Bool
  | [], _ => true
  | _ :: _, [] => false
  | p :: ps, c :: cs => p = c && listStartsWith ps cs

/-- Substring containment, JS `haystack.includes(sub)`. -/
def containsSub (cs sub : List Char) : Bool :=
  match cs with
  | [] => listStartsWith sub []
  | _ :: rest => listStartsWith sub cs || containsSub rest sub

/-- JS `text.toLowerCase().includes('tmr') || text.toLowerCase().includes('tomorrow')`. -/
def containsTmr (cs : List Char) : Bool :=
  containsSub (lowerList cs) "tmr".toList || containsSub (lowerList cs) "tomorrow".toList

/-- Leftmost-match scanner: try the position-indexed matcher at every
suffix, left to right, also tracking the previous character (for `\b`). -/
def scanPrev {α : Type} (f : Option Char → Nat → List Char → Option α) :
    Option Char → Nat → List Char → Option α
  | prev, i, [] => f prev i []
  | prev, i, c :: rest =>
    match f prev i (c :: rest) with
    | some a => some a
    | none => scanPrev f (some c) (i + 1) rest

/-- Two decimal digits at the head. -/
def take2Digits : List Char → Option (Char × Char × List Char)
  | c0 :: c1 :: rest => if c0.isDigit && c1.isDigit then some (c0, c1, rest) else none
  | _ => none

/-- `(am|pm)` case-insensitively at the head; returns the original two
characters, whether it is pm, and the rest. -/
def takeAmPm : List Char → Option (List Char × Bool × List Char)
  | c0 :: c1 :: rest =>
    if (c0.toLower = 'a' || c0.toLower = 'p') && c1.toLower = 'm' then
      some ([c0, c1], c0.toLower = 'p', rest)
    else none
  | _ => none

/-- Leftmost-match scanner without boundary context. -/
def scanIdx {α : Type} (f : Nat → List Char → Option α) : Nat → List Char → Option α
  | i, [] => f i []
  | i, c :: rest =>
    match f i (c :: rest) with
    | some a => some a
    | none => scanIdx f (i + 1) rest

/-! ## The dot-time pattern and the global dot-to-colon rewrite

Embeds the regex `(\d{1,2})\.(\d{2})(am|pm)` with the `gi` flags, as used in
`text.replace(/(\d{1,2})\.(\d{2})(am|pm)/gi, hour-colon-minute-ampm)`
(line 140 of index.mjs) and the dot-notation fallback (line 213). -/

/-- Match the dot-time pattern at the head of the list; greedy 1-2 digit
hour with backtracking, a literal dot, exactly two minute digits, am/pm.
Returns (hour digits, minute digits, am-pm chars, is-pm, rest). -/
def tryDotTime (cs : List Char) : Option (List Char × List Char × List Char × Bool × List Char) :=
  let afterDot := fun (hs : List Char) (cs1 : List Char) =>
    match cs1 with
    | '.' :: cs2 =>
      match take2Digits cs2 with
      | some (m0, m1, cs3) =>
        match takeAmPm cs3 with
        | some (ap, pm, rest) => some (hs, [m0, m1], ap, pm, rest)
        | none => none
      | none => none
    | _ => none
  match cs with
  | c0 :: c1 :: rest2 =>
    if c0.isDigit then
      if c1.isDigit then
        match afterDot [c0, c1] rest2 with
        | some r => some r
        | none => afterDot [c0] (c1 :: rest2)
      else afterDot [c0] (c1 :: rest2)
    else none
  | _ => none

/-- One fuel-indexed pass of the global dot-to-colon replacement; the fuel
starts at the list length and every step consumes at least one character,
so it never runs out before the input does. -/
def dotToColonGo : Nat → List Char → List Char
  | 0, cs => cs
  | _ + 1, [] => []
  | fuel + 1, c :: rest =>
    match tryDotTime (c :: rest) with
    | some (hs, ms, ap, _, rest2) => hs ++ ':' :: ms ++ ap ++ dotToColonGo fuel rest2
    | none => c :: dotToColonGo fuel rest

/-- JS line 140: rewrite every dot-notation 12-hour time to colon notation. -/
def dotToColon (cs : List Char) : List Char := dotToColonGo cs.length cs

/-! ## The time-range pattern and its rewrite (index.mjs lines 143-148) -/

/-- The suffix of a time token after its hour digits:
optional colon, optional two minute digits, then am/pm. -/
def timeTokAfterHour (hs : List Char) (cs : List Char) :
    Option (List Char × Option (List Char) × List Char × Bool × List Char) :=
  let cs1 := match cs with | ':' :: t => t | _ => cs
  match take2Digits cs1 with
  | some (m0, m1, cs2) =>
    match takeAmPm cs2 with
    | some (ap, pm, rest) => some (hs, some [m0, m1], ap, pm, rest)
    | none =>
      match takeAmPm cs1 with
      | some (ap, pm, rest) => some (hs, none, ap, pm, rest)
      | none => none
  | none =>
    match takeAmPm cs1 with
    | some (ap, pm, rest) => some (hs, none, ap, pm, rest)
    | none => none

/-- A time token `(\d{1,2}):?(\d{2})?(am|pm)` at the head of the list. -/
def timeTok (cs : List Char) : Option (List Char × Option (List Char) × List Char × Bool × List Char) :=
  match cs with
  | c0 :: c1 :: rest2 =>
    if c0.isDigit then
      if c1.isDigit then
        match timeTokAfterHour [c0, c1] rest2 with
        | some r => some r
        | none => timeTokAfterHour [c0] (c1 :: rest2)
      else timeTokAfterHour [c0] (c1 :: rest2)
    else none
  | _ => none

/-- The whole range pattern (time token, optional spaces, a dash or
en-dash, optional spaces, time token) at the head; returns the first
token's captures and the total number of characters consumed. -/
def rangeMatchAt (cs : List Char) : Option (List Char × Option (List Char) × List Char × Nat) :=
  match timeTok cs with
  | some (h1, m1, ap1, _, r1) =>
    match skipWs r1 with
    | d :: r3 =>
      if d = '-' || d = '–' then
        match timeTok (skipWs r3) with
        | some (_, _, _, _, r5) => some (h1, m1, ap1, cs.length - r5.length)
        | none => none
      else none
    | [] => none
  | none => none

/-- JS lines 143-148: if the range pattern matches anywhere, replace the
matched span by just its start time (hour, optional colon-minutes, am/pm). -/
def rangeRewrite (cs : List Char) : List Char :=
  match scanIdx (fun i tail => (rangeMatchAt tail).map (i, ·)) 0 cs with
  | none => cs
  | some (i, h, mOpt, ap, consumed) =>
    cs.take i ++ h ++ (match mOpt with | some m => ':' :: m | none => []) ++ ap
      ++ cs.drop (i + consumed)

/-! ## The ordinal-day patterns -/

/-- The ordinal suffix `(st|nd|rd|th)`, case-insensitive. -/
def ordSuffix : List Char → Option (List Char)
  | c0 :: c1 :: rest =>
    let s := [c0.toLower, c1.toLower]
    if s = ['s', 't'] || s = ['n', 'd'] || s = ['r', 'd'] || s = ['t', 'h'] then some rest
    else none
  | _ => none

/-- `(\d{1,2})(st|nd|rd|th)` at the head; returns (day digits, rest). -/
def dayOrdAt (cs : List Char) : Option (List Char × List Char) :=
  match cs with
  | c0 :: c1 :: rest2 =>
    if c0.isDigit then
      if c1.isDigit then
        match ordSuffix rest2 with
        | some r => some ([c0, c1], r)
        | none =>
          match ordSuffix (c1 :: rest2) with
          | some r => some ([c0], r)
          | none => none
      else
        match ordSuffix (c1 :: rest2) with
        | some r => some ([c0], r)
        | none => none
    else none
  | _ => none

/-- JS line 162: does `(\d{1,2})(st|nd|rd|th)` match anywhere in the text? -/
def dayPatternFires (cs : List Char) : Bool :=
  (scanIdx (fun _ tail => dayOrdAt tail) 0 cs).isSome

/-! ## The 24-hour military-time matcher (index.mjs line 176) -/

/-- After the hour digits of the military pattern: optional colon, exactly
two minute digits, then a word boundary.  Returns (matched chars, hour,
minutes). -/
def militaryAfterHour (hs : List Char) (cs : List Char) : Option (List Char × Nat × Nat) :=
  let p := match cs with | ':' :: t => (true, t) | _ => (false, cs)
  match take2Digits p.2 with
  | some (m0, m1, rest) =>
    if (match rest with | [] => true | c :: _ => !isWordChar c) then
      some (hs ++ (if p.1 then [':'] else []) ++ [m0, m1], digitsToNat hs, digitsToNat [m0, m1])
    else none
  | none => none

/-- The military pattern at the head of the list, with the leading word
boundary decided from the previous character. -/
def militaryAt (prev : Option Char) (cs : List Char) : Option (List Char × Nat × Nat) :=
  if (match prev with | none => true | some c => !isWordChar c) then
    match cs with
    | c0 :: c1 :: rest2 =>
      if c0.isDigit then
        if c1.isDigit then
          match militaryAfterHour [c0, c1] rest2 with
          | some r => some r
          | none => militaryAfterHour [c0] (c1 :: rest2)
        else militaryAfterHour [c0] (c1 :: rest2)
      else none
    | _ => none
  else none

/-- JS line 176: first match of the military time pattern; returns
(match position, matched chars, hour, minutes). -/
def militaryTimeMatch (cs : List Char) : Option (Nat × List Char × Nat × Nat) :=
  scanPrev (fun prev i tail => (militaryAt prev tail).map (i, ·)) none 0 cs

/-- JS line 213: first match of the dot-notation pattern; returns
(position, matched chars, hour, minutes, is-pm). -/
def dotTimeMatch (cs : List Char) : Option (Nat × List Char × Nat × Nat × Bool) :=
  scanIdx (fun i tail =>
    (tryDotTime tail).map (fun r =>
      (i, r.1 ++ '.' :: r.2.1 ++ r.2.2.1, digitsToNat r.1, digitsToNat r.2.1, r.2.2.2.1))) 0 cs

/-! ## The day-ordinal-plus-time matcher (index.mjs line 259) -/

/-- `([:.]\d{2})?(am|pm)` after the hour digits, with the optional group
skipped when it cannot complete.  Returns (hour digits, optional minutes,
is-pm, rest). -/
def sepMinAmPm (hs : List Char) (cs : List Char) :
    Option (List Char × Option Nat × Bool × List Char) :=
  let noSep := fun (_ : Unit) =>
    match takeAmPm cs with
    | some (_, pm, rest) => some (hs, none, pm, rest)
    | none => none
  match cs with
  | s :: cs1 =>
    if s = ':' || s = '.' then
      match take2Digits cs1 with
      | some (m0, m1, cs2) =>
        match takeAmPm cs2 with
        | some (_, pm, rest) => some (hs, some (digitsToNat [m0, m1]), pm, rest)
        | none => noSep ()
      | none => noSep ()
    else noSep ()
  | [] => none

/-- `(\d{1,2})([:.]\d{2})?(am|pm)` at the head. -/
def hourTimeAt (cs : List Char) : Option (List Char × Option Nat × Bool × List Char) :=
  match cs with
  | c0 :: c1 :: rest2 =>
    if c0.isDigit then
      if c1.isDigit then
        match sepMinAmPm [c0, c1] rest2 with
        | some r => some r
        | none => sepMinAmPm [c0] (c1 :: rest2)
      else sepMinAmPm [c0] (c1 :: rest2)
    else none
  | _ => none

/-- The full day-plus-time pattern at the head; returns (matched chars,
day, hour, optional minutes, is-pm). -/
def dayTimeAt (cs : List Char) : Option (List Char × Nat × Nat × Option Nat × Bool) :=
  match dayOrdAt cs with
  | some (dayDs, r1) =>
    let r2 := skipWs r1
    if r1.length = r2.length then none
    else
      match hourTimeAt r2 with
      | some (hs, minOpt, pm, rest) =>
        some (cs.take (cs.length - rest.length), digitsToNat dayDs, digitsToNat hs, minOpt, pm)
      | none => none
  | none => none

/-- JS line 259: first match of the day-ordinal-plus-time pattern;
returns (position, matched chars, day, hour, optional minutes, is-pm). -/
def dayTimeMatch (cs : List Char) : Option (Nat × List Char × Nat × Nat × Option Nat × Bool) :=
  scanIdx (fun i tail => (dayTimeAt tail).map (i, ·)) 0 cs

/-! ## The day-only matcher (index.mjs line 297) -/

/-- The negative lookahead of the day-only pattern: not (optional
whitespace then a digit). -/
def lookaheadOk (cs : List Char) : Bool :=
  match skipWs cs with
  | [] => true
  | c :: _ => !c.isDigit

/-- `(\d{1,2})(st|nd|rd|th)` with the lookahead, at the head;
returns the captured day. -/
def dayOnlyAt (cs : List Char) : Option Nat :=
  match cs with
  | c0 :: c1 :: rest2 =>
    if c0.isDigit then
      let one :=
        match ordSuffix (c1 :: rest2) with
        | some r => if lookaheadOk r then some (digitsToNat [c0]) else none
        | none => none
      if c1.isDigit then
        match ordSuffix rest2 with
        | some r => if lookaheadOk r then some (digitsToNat [c0, c1]) else one
        | none => one
      else one
    else none
  | _ => none

/-- JS line 297: first match of the day-only pattern; returns
(position, day). -/
def dayOnlyMatch (cs : List Char) : Option (Nat × Nat) :=
  scanIdx (fun i tail => (dayOnlyAt tail).map (i, ·)) 0 cs

/-! ## The relative-offset matcher (index.mjs line 315) -/

/-- Maximal run of at least one decimal digit. -/
def takeDigits1 : List Char → Option (List Char × List Char)
  | [] => none
  | c :: rest =>
    if c.isDigit then
      match takeDigits1 rest with
      | some (ds, r) => some (c :: ds, r)
      | none => some ([c], rest)
    else none

/-- Case-insensitive literal match; returns the original characters and
the rest. -/
def takeLitCI : List Char → List Char → Option (List Char × List Char)
  | [], cs => some ([], cs)
  | l :: ls, c :: cs =>
    if c.toLower = l then (takeLitCI ls cs).map (fun r => (c :: r.1, r.2)) else none
  | _ :: _, [] => none

/-- Word boundary after a unit word. -/
def unitBoundary : List Char → Bool
  | [] => true
  | c :: _ => !isWordChar c

/-- The unit alternation `(min|mins|minute|minutes|hour|hours|hr|hrs)\b`,
alternatives tried left to right as in the JS regex. -/
def unitAt (cs : List Char) : Option (List Char × List Char) :=
  let tryLit := fun (lit : String) =>
    match takeLitCI lit.toList cs with
    | some (o, r) => if unitBoundary r then some (o, r) else none
    | none => none
  tryLit "min" <|> tryLit "mins" <|> tryLit "minute" <|> tryLit "minutes"
    <|> tryLit "hour" <|> tryLit "hours" <|> tryLit "hr" <|> tryLit "hrs"

/-- The relative pattern at the head; returns (matched chars, amount,
lowercased unit). -/
def relativeAt (cs : List Char) : Option (List Char × Nat × List Char) :=
  match takeDigits1 cs with
  | some (ds, r1) =>
    match unitAt (skipWs r1) with
    | some (unit, rest) =>
      some (cs.take (cs.length - rest.length), digitsToNat ds, lowerList unit)
    | none => none
  | none => none

/-- JS line 315: first match of the relative-offset pattern; returns
(position, matched chars, amount, lowercased unit). -/
def relativeMatch (cs : List Char) : Option (Nat × List Char × Nat × List Char) :=
  scanIdx (fun i tail => (relativeAt tail).map (i, ·)) 0 cs

/-! ## The external environment and the resolver result type -/

/-- The `knownValues` component carried on a chrono parse result (and on
the mock results the fallback matchers build). -/
structure KnownValues where
  year : Option Int := none
  month : Option Int := none
  day : Option Int := none
  hour : Option Int := none
  minute : Option Int := none
  deriving DecidableEq, Repr

/-- One parse result: `index`, `text`, `start.date()` and
`start.knownValues` are the only fields the program reads. -/
structure ChronoResult where
  matchIndex : Nat
  matchText : String
  startEpoch : EpochMin
  known : KnownValues
  deriving DecidableEq, Repr

/-- The external behaviours `parseDateTime` consults: the first result of
`chrono.parse(text, now, { timezone })`, the ICU long month name of an
instant in a zone (`toLocaleString` with the month option), and the ICU
timezone-validity probe behind `isValidTimezone`. -/
structure ChronoEnv where
  parse : String → EpochMin → String → Option ChronoResult
  monthLong : EpochMin → String → String
  validTz : String → Bool

/-- JS lines 85-92 and 137: an identifier rejected by the validity probe
is replaced by the fallback zone. -/
def safeTzOf (validTz : String → Bool) (tz : String) : String :=
  if validTz tz then tz else "Asia/Singapore"

/-! ## The fallback branches of the resolver -/

/-- The sequential 12-to-24-hour conversion used by both the dot-notation
branch (lines 223-225) and the day-plus-time branch (lines 270-272):
add 12 for pm unless the captured hour is 12, then map 12 am to 0. -/
def to24Hour (hour : Nat) (pm : Bool) : Nat :=
  let h1 := if pm && hour ≠ 12 then hour + 12 else hour
  if !pm && hour = 12 then 0 else h1

/-- Lines 175-209: the 24-hour fallback.  The captured values are
non-negative by construction, so the JS guard reduces to the two upper
bounds; on failure the branch yields nothing and the cascade continues. -/
def militaryBranch (now : EpochMin) (cs : List Char) : Option ChronoResult :=
  match militaryTimeMatch cs with
  | none => none
  | some (idx, mchars, hour, minutes) =>
    if hour ≤ 23 && minutes ≤ 59 then
      let base := if containsTmr cs then now + 1440 else now
      let target := setHoursMin base hour minutes
      some { matchIndex := idx, matchText := String.mk mchars, startEpoch := target,
             known := { year := some (getFullYear target), month := some (getMonth target + 1),
                        day := some (getDate target),
                        hour := some (hour : Int), minute := some (minutes : Int) } }
    else none

/-- Lines 212-254: the dot-notation fallback; no validity check at all on
the captured values. -/
def dotBranch (now : EpochMin) (cs : List Char) : Option ChronoResult :=
  match dotTimeMatch cs with
  | none => none
  | some (idx, mchars, hour, minutes, pm) =>
    let hour24 := to24Hour hour pm
    let base := if containsTmr cs then now + 1440 else now
    let target := setHoursMin base (hour24 : Int) (minutes : Int)
    some { matchIndex := idx, matchText := String.mk mchars, startEpoch := target,
           known := { year := some (getFullYear target), month := some (getMonth target + 1),
                      day := some (getDate target),
                      hour := some (hour24 : Int), minute := some (minutes : Int) } }

/-- Lines 257-293: the day-ordinal-plus-time fallback; the captured day
is used as-is (no day-validity check) and `new Date` rolls it over. -/
def dayTimeBranch (now : EpochMin) (cs : List Char) : Option ChronoResult :=
  match dayTimeMatch cs with
  | none => none
  | some (idx, mchars, day, hour, minOpt, pm) =>
    let minutes := match minOpt with | some m => m | none => 0
    let hour24 := to24Hour hour pm
    let currentMonth := getMonth now
    let currentYear := getFullYear now
    let target := newDateYMDHM currentYear currentMonth (day : Int) (hour24 : Int) (minutes : Int)
    some { matchIndex := idx, matchText := String.mk mchars, startEpoch := target,
           known := { year := some currentYear, month := some (currentMonth + 1),
                      day := some (day : Int),
                      hour := some (hour24 : Int), minute := some (minutes : Int) } }

/-- Lines 296-311: the day-only fallback re-enters chrono on a synthetic
month-name date string. -/
def dayOnlyBranch (env : ChronoEnv) (now : EpochMin) (safeTz : String)
    (cs : List Char) : Option ChronoResult :=
  match dayOnlyMatch cs with
  | none => none
  | some (_, day) =>
    let currentMonth := env.monthLong now safeTz
    let currentYear := getFullYear now
    let dateStr := currentMonth ++ " " ++ toString day ++ ", " ++ toString currentYear
    env.parse dateStr now safeTz

/-- Lines 313-345: the relative-offset fallback. -/
def relativeBranch (now : EpochMin) (cs : List Char) : Option ChronoResult :=
  match relativeMatch cs with
  | none => none
  | some (idx, mchars, amount, unit) =>
    let minutes : Nat :=
      if listStartsWith "min".toList unit then amount
      else if listStartsWith "h".toList unit then amount * 60
      else 0
    let target := now + (minutes : Int)
    some { matchIndex := idx, matchText := String.mk mchars, startEpoch := target,
           known := { year := some (getFullYear target), month := some (getMonth target + 1),
                      day := some (getDate target),
                      hour := some (getHours target), minute := some (getMinutes target) } }

def weekdayNames : List String :=
  ["monday", "tuesday", "wednesday", "thursday", "friday", "saturday", "sunday"]

/-- Lines 348-361: the weekday fallback loops over the fixed weekday list
and keeps the first chrono result for a synthetic `this weekday` string. -/
def weekdayLoop (env : ChronoEnv) (now : EpochMin) (safeTz : String)
    (lowerText : List Char) : List String → Option ChronoResult
  | [] => none
  | d :: rest =>
    if containsSub lowerText d.toList then
      match env.parse ("this " ++ d) now safeTz with
      | some r => some r
      | none => weekdayLoop env now safeTz lowerText rest
    else weekdayLoop env now safeTz lowerText rest

def weekdayBranch (env : ChronoEnv) (now : EpochMin) (safeTz : String)
    (cs : List Char) : Option ChronoResult :=
  weekdayLoop env now safeTz (lowerList cs) weekdayNames

/-! ## The resolver itself (index.mjs lines 133-365) -/

/-- Lines 139-148: dot-to-colon conversion followed by the range rewrite;
this cleaned text is what the chrono step receives. -/
def cleanedTextOf (text : String) : String :=
  String.mk (rangeRewrite (dotToColon text.toList))

/-- Lines 161-167: a chrono result is discarded when the original text
contains a day-ordinal pattern and the result has today's day-of-month
and month. -/
def discardToday (now : EpochMin) (cs : List Char) (r : ChronoResult) : Bool :=
  dayPatternFires cs && getDate r.startEpoch == getDate now
    && getMonth r.startEpoch == getMonth now

/-- The chrono stage: parse the cleaned text, then apply the discard
heuristic. -/
def chronoStage (env : ChronoEnv) (now : EpochMin) (text : String)
    (safeTz : String) : Option ChronoResult :=
  match env.parse (cleanedTextOf text) now safeTz with
  | some result => if discardToday now text.toList result then none else some result
  | none => none

/-- `parseDateTime(text, timezone)` of index.mjs, with the ambient clock
(`new Date()` at line 134) and the external behaviours made explicit.
The body transliterates the sequential result-reassignment structure of
the source: chrono first (kept unless discarded), then each fallback in
the order it appears in the file. -/
def parseDateTime (env : ChronoEnv) (now : EpochMin) (text timezone : String) :
    Option ChronoResult :=
  let safeTimezone := safeTzOf env.validTz timezone
  let cs := text.toList
  match chronoStage env now text safeTimezone with
  | some r => some r
  | none =>
    match militaryBranch now cs with
    | some r => some r
    | none =>
      match dotBranch now cs with
      | some r => some r
      | none =>
        match dayTimeBranch now cs with
        | some r => some r
        | none =>
          match dayOnlyBranch env now safeTimezone cs with
          | some r => some r
          | none =>
            match relativeBranch now cs with
            | some r => some r
            | none => weekdayBranch env now safeTimezone cs

/-- First defined element of a list of optional results: the evaluation
order of a strict priority cascade. -/
def firstSome {α : Type} : List (Option α) → Option α
  | [] => none
  | some a :: _ => some a
  | none :: rest => firstSome rest

/-- The fallback cascade of the resolver as an ordered matcher list. -/
def fallbackCascade (env : ChronoEnv) (now : EpochMin) (safeTz : String)
    (cs : List Char) : Option ChronoResult :=
  firstSome
    [militaryBranch now cs, dotBranch now cs, dayTimeBranch now cs,
     dayOnlyBranch env now safeTz cs, relativeBranch now cs,
     weekdayBranch env now safeTz cs]

/-! ## Event assembly (handleMessage, index.mjs lines 748-781) -/

/-- JS truthiness-based default `value || fallback` on an optional numeric
field: an absent field or a zero value both select the fallback. -/
def orJS (v : Option Int) (dflt : Int) : Int :=
  match v with
  | some x => if x = 0 then dflt else x
  | none => dflt

/-- The event record `handleMessage` builds.  The JS object's `end` field
(a reserved word in Lean) is called `stop`; it is `none` exactly when the
source object carries no `end` property. -/
structure Event where
  title : String
  start : EpochMin
  stop : Option EpochMin
  allDay : Bool
  deriving DecidableEq, Repr

/-- Lines 752-781: rebuild the start from the match's known values when an
hour is present (local wall-clock construction via `new Date(...)`), then
build a timed event with `end = start + duration` or an all-day event with
no end. -/
def assembleEvent (title : String) (m : ChronoResult) (durationMin : Int) : Event :=
  let start0 := m.startEpoch
  match m.known.hour with
  | some targetHour =>
    let targetMinute := orJS m.known.minute 0
    let targetDay := orJS m.known.day (getDate start0)
    let targetMonth := orJS m.known.month (getMonth start0 + 1) - 1
    let targetYear := orJS m.known.year (getFullYear start0)
    let start := newDateYMDHM targetYear targetMonth targetDay targetHour targetMinute
    { title := title, start := start, stop := some (start + durationMin), allDay := false }
  | none =>
    { title := title, start := start0, stop := none, allDay := true }

/-! ## The deep-link exporter (createGoogleCalendarUrl, lines 402-433) -/

def pad2 (n : Int) : String := if 0 ≤ n && n < 10 then "0" ++ toString n else toString n

def pad4 (n : Int) : String :=
  if 0 ≤ n && n < 10 then "000" ++ toString n
  else if 0 ≤ n && n < 100 then "00" ++ toString n
  else if 0 ≤ n && n < 1000 then "0" ++ toString n
  else toString n

/-- Compact `YYYYMMDD` rendering of a civil date. -/
def yyyymmdd (d : Int × Int × Int) : String := pad4 d.1 ++ pad2 d.2.1 ++ pad2 d.2.2

/-- JS `date.toISOString().split(T-separator)[0].replace(dashes, empty)`:
the compact UTC calendar date of the instant. -/
def isoDateCompact (e : EpochMin) : String := yyyymmdd (civilFromDays (utcDayIndex e))

/-- Lines 412-419: `formatLocalTime`, the compact local date-time with a
`T` separator, seconds fixed to `00`, and no UTC suffix. -/
def formatLocalTime (e : EpochMin) : String :=
  toString (getFullYear e) ++ pad2 (getMonth e + 1) ++ pad2 (getDate e)
    ++ "T" ++ pad2 (getHours e) ++ pad2 (getMinutes e) ++ "00"

def hexDigitU (n : Nat) : Char := "0123456789ABCDEF".toList.getD n '0'

def percentByte (b : Nat) : List Char := ['%', hexDigitU (b / 16), hexDigitU (b % 16)]

/-- UTF-8 bytes of a code point. -/
def utf8Bytes (n : Nat) : List Nat :=
  if n < 128 then [n]
  else if n < 2048 then [192 + n / 64, 128 + n % 64]
  else if n < 65536 then [224 + n / 4096, 128 + n / 64 % 64, 128 + n % 64]
  else [240 + n / 262144, 128 + n / 4096 % 64, 128 + n / 64 % 64, 128 + n % 64]

/-- Characters the `URLSearchParams` serializer leaves unescaped. -/
def formUnreserved (c : Char) : Bool :=
  c.isAlpha || c.isDigit || c = '*' || c = '-' || c = '.' || c = '_'

def formEncodeChar (c : Char) : List Char :=
  if formUnreserved c then [c]
  else if c = ' ' then ['+']
  else (utf8Bytes c.toNat).foldr (fun b acc => percentByte b ++ acc) []

/-- The WHATWG `URLSearchParams` percent-encoding of one value. -/
def formEncode (s : String) : String :=
  String.mk (s.toList.foldr (fun c acc => formEncodeChar c ++ acc) [])

/-- Lines 402-433: the Google Calendar deep link.  All-day events render
the UTC date of the start instant and of start plus 24 hours; timed events
render `formatLocalTime` of start and end; the parameters `text`, `dates`,
`ctz` are serialized in insertion order.  (A timed event built by
`assembleEvent` always carries an end; the `getD` default only makes the
function total.) -/
def createGoogleCalendarUrl (event : Event) (timezone : String) : String :=
  let baseUrl := "https://calendar.google.com/calendar/render?action=TEMPLATE"
  let dates :=
    if event.allDay then
      isoDateCompact event.start ++ "/" ++ isoDateCompact (event.start + 1440)
    else
      formatLocalTime event.start ++ "/" ++ formatLocalTime (event.stop.getD event.start)
  baseUrl ++ "&" ++ "text=" ++ formEncode event.title ++ "&dates=" ++ formEncode dates
    ++ "&ctz=" ++ formEncode timezone

/-! ## The interchange-document exporter (createIcsContent, lines 435-453) -/

/-- The argument object passed to the `ics` package's `createEvent`
(the part of the export this repository controls).  `stop` models the
JS object's `end` field, `none` meaning the property is absent. -/
structure IcsInput where
  title : String
  start : List Int
  stop : Option (List Int)
  startInputType : String
  endInputType : String
  startOutputType : String
  endOutputType : String
  deriving DecidableEq, Repr

/-- Lines 435-453: all-day events pass a bare three-component date as
start and the same date with the day component incremented (without
normalization) as end; timed events pass five local components for both;
all four type tags say `local`.  The timezone parameter is accepted and
unused, exactly as in the source. -/
def createIcsContent (event : Event) (timezone : String) : IcsInput :=
  let _ := timezone
  if event.allDay then
    { title := event.title,
      start := [getFullYear event.start, getMonth event.start + 1, getDate event.start],
      stop := some [getFullYear event.start, getMonth event.start + 1, getDate event.start + 1],
      startInputType := "local", endInputType := "local",
      startOutputType := "local", endOutputType := "local" }
  else
    let e := event.stop.getD event.start
    { title := event.title,
      start := [getFullYear event.start, getMonth event.start + 1, getDate event.start,
                getHours event.start, getMinutes event.start],
      stop := some [getFullYear e, getMonth e + 1, getDate e, getHours e, getMinutes e],
      startInputType := "local", endInputType := "local",
      startOutputType := "local", endOutputType := "local" }

/-! ## The message pipeline around the resolver (lines 725-837) -/

/-- The per-user or per-group preferences the pipeline reads. -/
structure Prefs where
  timezone : String
  durationMin : Int

/-- Lines 748-781 of `handleMessage`, after the word-filter step: resolve,
return nothing on no match, otherwise assemble the event.  The title
extraction (`extractTitle`) does not affect any claim under proof and is
abstracted as the `titleOf` argument. -/
def pipelineEvent (env : ChronoEnv) (now : EpochMin) (text : String) (prefs : Prefs)
    (titleOf : String → ChronoResult → String) : Option Event :=
  match parseDateTime env now text prefs.timezone with
  | none => none
  | some m => some (assembleEvent (titleOf text m) m prefs.durationMin)

/-- Lines 783-812: when an event was produced, recompute the safe timezone
and produce both exported artifacts; when none was, produce nothing. -/
def pipelineArtifacts (env : ChronoEnv) (now : EpochMin) (text : String) (prefs : Prefs)
    (titleOf : String → ChronoResult → String) : Option (String × IcsInput) :=
  match pipelineEvent env now text prefs titleOf with
  | none => none
  | some e =>
    let safeTimezone := safeTzOf env.validTz prefs.timezone
    some (createGoogleCalendarUrl e safeTimezone, createIcsContent e safeTimezone)

/-! ## Helper lemmas -/

/-- Adding 24 hours advances the day index by exactly one. -/
theorem utcDayIndex_add_day (x : EpochMin) :
    utcDayIndex (x + 1440) = utcDayIndex x + 1 := by
  unfold utcDayIndex
  rw [Int.fdiv_eq_ediv _ (by norm_num), Int.fdiv_eq_ediv _ (by norm_num)]
  have h := Int.add_mul_ediv_right x 1 (show (1440 : Int) ≠ 0 by norm_num)
  simpa using h

/-- The local calendar accessors of an instant recombine to the civil
date of its day index. -/
theorem localDateTriple (x : EpochMin) :
    (getFullYear x, getMonth x + 1, getDate x) = civilFromDays (utcDayIndex x) := by
  unfold getFullYear getMonth getDate
  cases hcd : civilFromDays (utcDayIndex x) with
  | mk y md =>
    cases md with
    | mk m d => simp [hcd]

/-- When the external parser returns nothing on every query, the weekday
loop returns nothing. -/
theorem weekdayLoop_none (env : ChronoEnv) (now : EpochMin) (tz : String)
    (lower : List Char) (hp : ∀ s n z, env.parse s n z = none) :
    ∀ l, weekdayLoop env now tz lower l = none := by
  intro l
  induction l with
  | nil => rfl
  | cons d rest ih =>
    simp only [weekdayLoop, hp]
    split <;> simp [ih]

/-- The invalid-to-fallback timezone substitution is idempotent. -/
theorem safeTzOf_idem (v : String → Bool) (tz : String) :
    safeTzOf v (safeTzOf v tz) = safeTzOf v tz := by
  unfold safeTzOf
  by_cases h : v tz <;> simp [h]

/-! ## Concrete fixtures used by witnesses and counterexamples -/

/-- An external environment in which the chrono parser finds nothing on
any query, every timezone passes the validity probe, and the current
month name is October.  (For the inputs it is used with below, the real
chrono either finds nothing or finds a today-dated result that the
ordinal-discard heuristic of lines 161-167 drops, which leads into the
same fallback path.) -/
def chronoNone : ChronoEnv :=
  { parse := fun _ _ _ => none, monthLong := fun _ _ => "October",
    validTz := fun _ => true }

/-- The reference instant 2024-10-21 10:00, matching the concrete
scenarios of the specification. -/
def refNow : EpochMin := daysFromCivil 2024 10 21 * 1440 + 600

/-- A chrono result for a bare clock time on the reference day, as the
real chrono produces for a time without a date (it defaults to today). -/
def todayRes : ChronoResult :=
  { matchIndex := 5, matchText := "3pm", startEpoch := setHoursMin refNow 15 0,
    known := { hour := some 15, minute := some 0 } }

/-- An environment in which the chrono parser always finds `todayRes`. -/
def chronoToday : ChronoEnv :=
  { parse := fun _ _ _ => some todayRes, monthLong := fun _ _ => "October",
    validTz := fun _ => true }

/-- The chrono result for the rewritten range start `3:30pm` of the
specification's range scenario. -/
def startRes : ChronoResult :=
  { matchIndex := 0, matchText := "3:30pm", startEpoch := setHoursMin refNow 15 30,
    known := { hour := some 15, minute := some 30 } }

/-- An environment in which the chrono parser recognizes exactly the
rewritten text `3:30pm sync` of the range scenario. -/
def chronoStart : ChronoEnv :=
  { parse := fun t _ _ => if t = "3:30pm sync" then some startRes else none,
    monthLong := fun _ _ => "October", validTz := fun _ => true }

/-- The match the 24-hour fallback produces for `1630` at the reference
instant. -/
def res1630 : ChronoResult :=
  { matchIndex := 0, matchText := "1630", startEpoch := setHoursMin refNow 16 30,
    known := { year := some 2024, month := some 10, day := some 21,
               hour := some 16, minute := some 30 } }

/-- A date-only chrono result (no hour), as produced for a bare date. -/
def dateOnlyRes : ChronoResult :=
  { matchIndex := 0, matchText := "October 25, 2024",
    startEpoch := daysFromCivil 2024 10 25 * 1440 + 720,
    known := { year := some 2024, month := some 10, day := some 25 } }

/-! ## Claim C1 -/

/-- Claim C1 is false as stated: on `29th 5am 1630` the day-ordinal-plus-
time matcher (claimed priority 1) structurally matches with the valid day
29 and hour 5, yet the resolver returns the 24-hour matcher's result
(`1630`, resolved to today, the 21st, at 16:30), because in the source the
24-hour fallback is tried before the day-ordinal fallback. -/
theorem c1_counterexample :
    (dayTimeBranch refNow "29th 5am 1630".toList).map
      (fun r => (r.known.day, r.known.hour)) = some (some 29, some 5) ∧
    (parseDateTime chronoNone refNow "29th 5am 1630" "Asia/Singapore").map
      (fun r => (r.matchText, r.known.day, r.known.hour))
      = some ("1630", some 21, some 16) := by
  constructor <;> decide

/-- Claim C1, amended: the resolver first consults the external chrono
parser on the cleaned text (keeping its result unless the ordinal-discard
heuristic fires) and only then runs the fallback cascade, whose strict
first-success order is: 24-hour numeric time, dot-notation 12-hour time,
day-ordinal plus time, day-ordinal alone, relative offset, bare weekday;
once one branch fires no later branch is attempted. -/
theorem c1_amended_cascade_order (env : ChronoEnv) (now : EpochMin) (text timezone : String) :
    parseDateTime env now text timezone =
      match chronoStage env now text (safeTzOf env.validTz timezone) with
      | some r => some r
      | none => fallbackCascade env now (safeTzOf env.validTz timezone) text.toList := by
  simp only [parseDateTime, fallbackCascade]
  cases h0 : chronoStage env now text (safeTzOf env.validTz timezone) <;> simp only [h0]
  cases h1 : militaryBranch now text.toList <;> simp only [h1, firstSome]
  cases h2 : dotBranch now text.toList <;> simp only [h2, firstSome]
  cases h3 : dayTimeBranch now text.toList <;> simp only [h3, firstSome]
  cases h4 : dayOnlyBranch env now (safeTzOf env.validTz timezone) text.toList <;>
    simp only [h4, firstSome]
  cases h5 : relativeBranch now text.toList <;> simp only [h5, firstSome]
  cases weekdayBranch env now (safeTzOf env.validTz timezone) text.toList <;> rfl

/-! ## Claim C2 -/

/-- Claim C2 is false as stated: the range rewrite is applied only to the
cleaned text handed to the chrono step, while the fallback matchers scan
the original text.  On `32nd 3pm-4pm 1630` (which contains the range
`3pm-4pm`), with chrono behaving as it really does on a bare clock time
(returning a today-dated result, which the ordinal-discard heuristic then
drops because of `32nd`), the resolver returns the 24-hour fallback's
match `1630` at 16:30 — not the range's start time 15:00. -/
theorem c2_counterexample :
    cleanedTextOf "32nd 3pm-4pm 1630" = "32nd 3pm 1630" ∧
    (parseDateTime chronoToday refNow "32nd 3pm-4pm 1630" "Asia/Singapore").map
      (fun r => (r.matchText, r.known.hour, r.known.minute))
      = some ("1630", some 16, some 30) := by
  constructor <;> decide

/-- Claim C2, amended: the range rewrite replaces the first time-range in
the text by its start time in the cleaned text that the chrono step
receives (concretely, `3:30pm-4:30pm sync` becomes `3:30pm sync`), and
whenever the chrono step accepts that cleaned text with a result the
discard heuristic keeps, the resolver returns exactly that result — so on
the chrono path ranges resolve to their start, never their end.  The
fallback matchers, however, operate on the original, unrewritten text. -/
theorem c2_amended_range_rewrite :
    cleanedTextOf "3:30pm-4:30pm sync" = "3:30pm sync" ∧
    ∀ (env : ChronoEnv) (now : EpochMin) (text timezone : String) (r : ChronoResult),
      env.parse (cleanedTextOf text) now (safeTzOf env.validTz timezone) = some r →
      discardToday now text.toList r = false →
      parseDateTime env now text timezone = some r := by
  refine ⟨by decide, fun env now text timezone r hparse hkeep => ?_⟩
  simp only [String.toList] at hkeep
  simp [parseDateTime, chronoStage, hparse, hkeep]

/-- Witness for the amended C2: the range scenario of the specification,
with chrono accepting the rewritten text. -/
theorem c2_amended_range_rewrite_witness :
    cleanedTextOf "3:30pm-4:30pm sync" = "3:30pm sync" ∧
    parseDateTime chronoStart refNow "3:30pm-4:30pm sync" "Asia/Singapore" = some startRes :=
  ⟨c2_amended_range_rewrite.1,
   c2_amended_range_rewrite.2 chronoStart refNow "3:30pm-4:30pm sync" "Asia/Singapore"
     startRes (by decide) (by decide)⟩

/-! ## Claim C3 -/

/-- Claim C3 holds: both matchers that capture a 12-hour time (the
dot-notation branch, lines 223-225, and the day-plus-time branch, lines
270-272) convert it through the same `to24Hour` computation, which maps
12 am to 0, keeps 12 pm at 12, adds 12 to 1-11 pm, and keeps 1-11 am;
the two end-to-end evaluations exercise the hour-12 boundary through each
matcher. -/
theorem c3_twelve_hour_conversion :
    (∀ h : Nat, 1 ≤ h → h ≤ 11 → to24Hour h true = h + 12 ∧ to24Hour h false = h) ∧
    to24Hour 12 false = 0 ∧ to24Hour 12 true = 12 ∧
    (parseDateTime chronoNone refNow "12.05am" "Asia/Singapore").map
      (fun r => r.known.hour) = some (some 0) ∧
    (parseDateTime chronoNone refNow "29th 12pm" "Asia/Singapore").map
      (fun r => r.known.hour) = some (some 12) := by
  refine ⟨fun h h1 h2 => ?_, by decide, by decide, by decide, by decide⟩
  have h12 : h ≠ 12 := by omega
  exact ⟨by simp [to24Hour, h12], by simp [to24Hour, h12]⟩

/-- Witness for C3 at the boundary hours 11 and 1. -/
theorem c3_twelve_hour_conversion_witness :
    (to24Hour 11 true = 23 ∧ to24Hour 11 false = 11) ∧
    (to24Hour 1 true = 13 ∧ to24Hour 1 false = 1) :=
  ⟨c3_twelve_hour_conversion.1 11 (by decide) (by decide),
   c3_twelve_hour_conversion.1 1 (by decide) (by decide)⟩

/-! ## Claim C4 -/

/-- Claim C4 is false as stated: the day-ordinal-plus-time matcher has no
day-validity check, so on `32nd 5am` the resolver does not fall through
to NoMatch — it returns a match built from the invalid day 32, whose
constructed date rolls over into 1 November 2024. -/
theorem c4_counterexample :
    (parseDateTime chronoNone refNow "32nd 5am" "Asia/Singapore").map
      (fun r => (r.known.day, civilFromDays (utcDayIndex r.startEpoch)))
      = some (some 32, (2024, 11, 1)) := by decide

/-- Claim C4, amended: only the 24-hour matcher has a validity check —
whenever its structural match captures an hour above 23 or minutes above
59 the branch yields nothing, no error is raised, and the cascade
continues (concretely, `at 1:99` falls through every matcher to NoMatch);
the day-ordinal-plus-time matcher performs no day check, so `32nd 5am`
produces a match carrying day 32 rather than NoMatch. -/
theorem c4_amended_validity :
    (∀ (now : EpochMin) (cs : List Char) (i : Nat) (s : List Char) (h m : Nat),
      militaryTimeMatch cs = some (i, s, h, m) → ¬(h ≤ 23 ∧ m ≤ 59) →
      militaryBranch now cs = none) ∧
    parseDateTime chronoNone refNow "at 1:99" "Asia/Singapore" = none ∧
    (parseDateTime chronoNone refNow "32nd 5am" "Asia/Singapore").map
      (fun r => r.known.day) = some (some 32) := by
  refine ⟨fun now cs i s h m hmatch hinv => ?_, by decide, by decide⟩
  have hb : (decide (h ≤ 23) && decide (m ≤ 59)) = false := by
    simp only [Bool.and_eq_false_iff, decide_eq_false_iff_not]
    omega
  simp [militaryBranch, hmatch, hb]

/-- Witness for the amended C4: the military match of `at 1:99` captures
minutes 99, the branch yields nothing, and the whole resolver returns
NoMatch. -/
theorem c4_amended_validity_witness :
    militaryBranch refNow "at 1:99".toList = none ∧
    parseDateTime chronoNone refNow "at 1:99" "Asia/Singapore" = none :=
  ⟨c4_amended_validity.1 refNow "at 1:99".toList 3 ['1', ':', '9', '9'] 1 99
     (by decide) (by decide),
   c4_amended_validity.2.1⟩

/-! ## Claim C5 -/

/-- Claim C5 holds: when the resolved match carries an hour, the
assembled event is timed and its end is exactly start plus the default
duration (hence strictly after the start when the duration is positive);
when it carries no hour, the event is all-day and has no end at all
(handleMessage lines 770-781). -/
theorem c5_event_assembly (title : String) (m : ChronoResult) (d : Int) :
    (m.known.hour.isSome →
      (assembleEvent title m d).allDay = false ∧
      (assembleEvent title m d).stop = some ((assembleEvent title m d).start + d) ∧
      (0 < d → ∀ e, (assembleEvent title m d).stop = some e →
        (assembleEvent title m d).start < e)) ∧
    (m.known.hour = none →
      (assembleEvent title m d).allDay = true ∧ (assembleEvent title m d).stop = none) := by
  cases h : m.known.hour with
  | some hh =>
    refine ⟨fun _ => ⟨by simp [assembleEvent, h], by simp [assembleEvent, h],
      fun hd e he => ?_⟩, fun hn => by simp [h] at hn⟩
    simp only [assembleEvent, h, Option.some.injEq] at he ⊢
    subst he
    exact lt_add_of_pos_right _ hd
  | none =>
    exact ⟨fun hs => by simp [h] at hs,
      fun _ => ⟨by simp [assembleEvent, h], by simp [assembleEvent, h]⟩⟩

/-- Witness for C5: the military match of `1630` assembled with a
60-minute duration gives a timed event ending one hour after its start,
and a date-only chrono match gives an all-day event with no end. -/
theorem c5_event_assembly_witness :
    ((assembleEvent "sync" res1630 60).allDay = false ∧
      (assembleEvent "sync" res1630 60).stop
        = some ((assembleEvent "sync" res1630 60).start + 60) ∧
      (0 < (60 : Int) → ∀ e, (assembleEvent "sync" res1630 60).stop = some e →
        (assembleEvent "sync" res1630 60).start < e)) ∧
    ((assembleEvent "trip" dateOnlyRes 60).allDay = true ∧
      (assembleEvent "trip" dateOnlyRes 60).stop = none) :=
  ⟨(c5_event_assembly "sync" res1630 60).1 (by decide),
   (c5_event_assembly "trip" dateOnlyRes 60).2 (by decide)⟩

/-! ## Claim C6 -/

/-- An all-day event as the pipeline builds one (start is the chrono
instant of the date, here noon of 2024-10-25; no end). -/
def allDayEvent : Event :=
  { title := "trip plan", start := daysFromCivil 2024 10 25 * 1440 + 720,
    stop := none, allDay := true }

/-- A timed event as the pipeline builds one. -/
def timedEvent : Event :=
  { title := "team sync", start := refNow, stop := some (refNow + 60), allDay := false }

/-- Claim C6 is false as stated: for an all-day event the interchange
document exporter does pass an end field to the calendar library — the
bare date of the day after the start (day component incremented without
normalization) — rather than omitting the end. -/
theorem c6_counterexample :
    (createIcsContent allDayEvent "Asia/Singapore").stop = some [2024, 10, 26] ∧
    (createIcsContent allDayEvent "Asia/Singapore").stop ≠ none := by
  constructor <;> decide

/-- Claim C6, amended: for all-day events the exporter emits a bare
three-component start date with no time component, and an end equal to
the start date with the day component incremented by one (half-open
interval, not normalized across month boundaries); for timed events it
emits local year/month/day/hour/minute for both start and end; in every
case all four input and output type tags say local, not UTC. -/
theorem c6_amended_ics_fields (e : Event) (tz : String) :
    (e.allDay = true →
      (createIcsContent e tz).start
        = [getFullYear e.start, getMonth e.start + 1, getDate e.start] ∧
      (createIcsContent e tz).stop
        = some [getFullYear e.start, getMonth e.start + 1, getDate e.start + 1]) ∧
    (e.allDay = false → ∀ en, e.stop = some en →
      (createIcsContent e tz).start
        = [getFullYear e.start, getMonth e.start + 1, getDate e.start,
           getHours e.start, getMinutes e.start] ∧
      (createIcsContent e tz).stop
        = some [getFullYear en, getMonth en + 1, getDate en,
                getHours en, getMinutes en]) ∧
    (createIcsContent e tz).startInputType = "local" ∧
    (createIcsContent e tz).endInputType = "local" ∧
    (createIcsContent e tz).startOutputType = "local" ∧
    (createIcsContent e tz).endOutputType = "local" := by
  refine ⟨fun h => ?_, fun h en hen => ?_, ?_, ?_, ?_, ?_⟩
  · exact ⟨by simp [createIcsContent, h], by simp [createIcsContent, h]⟩
  · exact ⟨by simp [createIcsContent, h], by simp [createIcsContent, h, hen]⟩
  all_goals unfold createIcsContent; split <;> rfl

/-- Witness for the amended C6 on the two concrete events. -/
theorem c6_amended_ics_fields_witness :
    ((createIcsContent allDayEvent "Asia/Singapore").start = [2024, 10, 25] ∧
      (createIcsContent allDayEvent "Asia/Singapore").stop = some [2024, 10, 26]) ∧
    ((createIcsContent timedEvent "Asia/Singapore").start = [2024, 10, 21, 10, 0] ∧
      (createIcsContent timedEvent "Asia/Singapore").stop = some [2024, 10, 21, 11, 0]) := by
  have h1 := (c6_amended_ics_fields allDayEvent "Asia/Singapore").1 (by decide)
  have h2 := (c6_amended_ics_fields timedEvent "Asia/Singapore").2.1 (by decide)
    (refNow + 60) (by decide)
  refine ⟨⟨?_, ?_⟩, ⟨?_, ?_⟩⟩
  · rw [h1.1]; decide
  · rw [h1.2]; decide
  · rw [h2.1]; decide
  · rw [h2.2]; decide

/-! ## Claim C7 -/

/-- Claim C7 holds: the deep-link URL for an all-day event carries its
calendar date and the date exactly one day later as compact `YYYYMMDD`
values (half-open interval); for a timed event it carries the compact
local `YYYYMMDDTHHMMSS` renderings of start and end (no UTC suffix);
the title, the dates value and the timezone are serialized as the
percent-encoded query parameters `text`, `dates` and `ctz`. -/
theorem c7_google_url (e : Event) (tz : String) :
    (e.allDay = true →
      createGoogleCalendarUrl e tz =
        "https://calendar.google.com/calendar/render?action=TEMPLATE" ++ "&"
          ++ "text=" ++ formEncode e.title ++ "&dates="
          ++ formEncode (yyyymmdd (getFullYear e.start, getMonth e.start + 1, getDate e.start)
              ++ "/" ++ yyyymmdd (civilFromDays (utcDayIndex e.start + 1)))
          ++ "&ctz=" ++ formEncode tz) ∧
    (e.allDay = false → ∀ en, e.stop = some en →
      createGoogleCalendarUrl e tz =
        "https://calendar.google.com/calendar/render?action=TEMPLATE" ++ "&"
          ++ "text=" ++ formEncode e.title ++ "&dates="
          ++ formEncode (formatLocalTime e.start ++ "/" ++ formatLocalTime en)
          ++ "&ctz=" ++ formEncode tz) := by
  constructor
  · intro h
    simp only [createGoogleCalendarUrl, h, if_true, isoDateCompact]
    rw [localDateTriple, utcDayIndex_add_day]
  · intro h en hen
    simp only [createGoogleCalendarUrl, h, Bool.false_eq_true, if_false, hen, Option.getD_some]

/-- Witness for C7 on the two concrete events, exhibiting the start date
and the start date plus one day in the all-day link. -/
theorem c7_google_url_witness :
    createGoogleCalendarUrl allDayEvent "Asia/Singapore" =
      "https://calendar.google.com/calendar/render?action=TEMPLATE" ++ "&"
        ++ "text=" ++ formEncode "trip plan" ++ "&dates="
        ++ formEncode ("20241025" ++ "/" ++ "20241026")
        ++ "&ctz=" ++ formEncode "Asia/Singapore" ∧
    createGoogleCalendarUrl timedEvent "Asia/Singapore" =
      "https://calendar.google.com/calendar/render?action=TEMPLATE" ++ "&"
        ++ "text=" ++ formEncode "team sync" ++ "&dates="
        ++ formEncode ("20241021T100000" ++ "/" ++ "20241021T110000")
        ++ "&ctz=" ++ formEncode "Asia/Singapore" := by
  have h1 := (c7_google_url allDayEvent "Asia/Singapore").1 (by decide)
  have h2 := (c7_google_url timedEvent "Asia/Singapore").2 (by decide)
    (refNow + 60) (by decide)
  exact ⟨h1, h2⟩

/-! ## Claim C8 -/

/-- Claim C8 holds: when the external parser recognizes nothing and none
of the structural fallback patterns (24-hour time, dot time, day plus
time, relative offset) occurs in the text, the resolver returns NoMatch —
a plain empty result, not a fault — and the pipeline produces no event
and no exported artifacts.  (The day-only and weekday branches consult
the external parser again and so yield nothing under the same
hypothesis.) -/
theorem c8_no_match (env : ChronoEnv) (now : EpochMin) (text : String) (prefs : Prefs)
    (titleOf : String → ChronoResult → String)
    (hparse : ∀ s n z, env.parse s n z = none)
    (hmil : militaryTimeMatch text.toList = none)
    (hdot : dotTimeMatch text.toList = none)
    (hday : dayTimeMatch text.toList = none)
    (hrel : relativeMatch text.toList = none) :
    parseDateTime env now text prefs.timezone = none ∧
    pipelineEvent env now text prefs titleOf = none ∧
    pipelineArtifacts env now text prefs titleOf = none := by
  have h0 : chronoStage env now text (safeTzOf env.validTz prefs.timezone) = none := by
    unfold chronoStage; rw [hparse]
  have h1 : militaryBranch now text.toList = none := by
    unfold militaryBranch; rw [hmil]
  have h2 : dotBranch now text.toList = none := by
    unfold dotBranch; rw [hdot]
  have h3 : dayTimeBranch now text.toList = none := by
    unfold dayTimeBranch; rw [hday]
  have h4 : dayOnlyBranch env now (safeTzOf env.validTz prefs.timezone) text.toList = none := by
    unfold dayOnlyBranch
    cases hdo : dayOnlyMatch text.toList <;> simp [hdo, hparse]
  have h5 : relativeBranch now text.toList = none := by
    unfold relativeBranch; rw [hrel]
  have h6 : weekdayBranch env now (safeTzOf env.validTz prefs.timezone) text.toList = none := by
    unfold weekdayBranch
    exact weekdayLoop_none env now _ _ hparse weekdayNames
  have hpd : parseDateTime env now text prefs.timezone = none := by
    simp only [parseDateTime, h0, h1, h2, h3, h4, h5, h6]
  refine ⟨hpd, ?_, ?_⟩
  · simp only [pipelineEvent, hpd]
  · simp only [pipelineArtifacts, pipelineEvent, hpd]

/-- Witness for C8: the specification's no-temporal-content scenario. -/
theorem c8_no_match_witness :
    parseDateTime chronoNone refNow "hello there" "Asia/Singapore" = none ∧
    pipelineEvent chronoNone refNow "hello there"
      { timezone := "Asia/Singapore", durationMin := 60 } (fun t _ => t) = none ∧
    pipelineArtifacts chronoNone refNow "hello there"
      { timezone := "Asia/Singapore", durationMin := 60 } (fun t _ => t) = none :=
  c8_no_match chronoNone refNow "hello there"
    { timezone := "Asia/Singapore", durationMin := 60 } (fun t _ => t)
    (fun _ _ _ => rfl) (by rfl) (by rfl) (by rfl) (by rfl)

/-! ## Claim C9 -/

/-- Claim C9 is false as stated: the resolver reads the ambient clock
inside its body (`new Date()` at line 134) instead of receiving a
reference instant, so two runs on the identical text and timezone made at
different clock readings return different matches — here `30 min`
resolved one hour apart. -/
theorem c9_counterexample :
    parseDateTime chronoNone refNow "30 min" "Asia/Singapore" ≠
      parseDateTime chronoNone (refNow + 60) "30 min" "Asia/Singapore" := by decide

/-- Claim C9, amended: the resolver is deterministic in the clock reading
together with its declared inputs — for a fixed external environment,
runs with equal clock readings, equal text and equal timezone return the
identical match; no state beyond these arguments enters the embedded
computation.  The clock itself, however, is read inside the function,
not passed as part of a resolution context. -/
theorem c9_amended_determinism (env : ChronoEnv) (text timezone : String)
    (now1 now2 : EpochMin) (h : now1 = now2) :
    parseDateTime env now1 text timezone = parseDateTime env now2 text timezone := by
  rw [h]

/-- Witness for the amended C9 at the reference instant. -/
theorem c9_amended_determinism_witness :
    parseDateTime chronoNone refNow "30 min" "Asia/Singapore"
      = parseDateTime chronoNone refNow "30 min" "Asia/Singapore" :=
  c9_amended_determinism chronoNone "30 min" "Asia/Singapore" refNow refNow rfl

/-! ## Claim C10 -/

/-- Claim C10 holds: the resolver is total in the timezone argument and
depends on it only through the substitution that replaces an identifier
rejected by the validity probe with the fallback zone Asia/Singapore
(line 137); the artifact-producing path of the pipeline applies the same
substitution (line 784), so the whole computation on any zone string
equals the computation on its substituted form.  (Being a total Lean
function of the substituted zone, the embedded resolver cannot fault on
account of the zone.) -/
theorem c10_timezone_total (env : ChronoEnv) (now : EpochMin) (text tz : String)
    (d : Int) (titleOf : String → ChronoResult → String) :
    parseDateTime env now text tz =
      parseDateTime env now text (if env.validTz tz then tz else "Asia/Singapore") ∧
    pipelineArtifacts env now text { timezone := tz, durationMin := d } titleOf =
      pipelineArtifacts env now text
        { timezone := if env.validTz tz then tz else "Asia/Singapore", durationMin := d }
        titleOf := by
  have key : parseDateTime env now text tz
      = parseDateTime env now text (safeTzOf env.validTz tz) := by
    simp only [parseDateTime, safeTzOf_idem]
  refine ⟨key, ?_⟩
  simp only [pipelineArtifacts, pipelineEvent]
  rw [show (if env.validTz tz = true then tz else "Asia/Singapore")
      = safeTzOf env.validTz tz from rfl, ← key, safeTzOf_idem]
